import Mathlib

/-!
Shallow embedding of `scripts/update_data.py`, the single-file pipeline of
the geo-skin-fibrosis-explorer repository, together with proofs of the
claims of the specification about it.

The script is a linear pipeline: build query → search → fetch summaries →
parse/merge records → persist.  Network interactions (Entrez search,
Entrez esummary, the MiniMax chat-completion endpoint) are modelled as
oracle parameters; the rest of the code is translated directly.
-/

namespace GeoUpdate

/-- A persisted dataset record, mirroring the dict literal returned by
`parse_record` (field names exactly as in the JSON store). -/
structure Record where
  Accession : String
  Title : String
  Organism : String
  Data_Type : String
  Sample_Count : Nat
  Platform : String
  Country : String
  Lab : String
  Institute : String
  Contributors : String
  PubMed_IDs : String
  Supplementary_Size : String
  Summary : String
  Overall_Design : String
  AI_Summary_CN : String
  AI_Summary : String
  GEO_Link : String
  Submission_Date : String
deriving Repr, DecidableEq

/-- A raw esummary record as consumed by `parse_record` / `main`.  Each
field models `record.get(key, default)` on the Python dict: `none` stands
for an absent key.  `PubMedIds` holds the `str(p)` renderings of the list
elements. -/
structure RawRecord where
  Accession : Option String
  title : Option String
  summary : Option String
  taxon : Option String
  n_samples : Option Nat
  GPL : Option String
  PDAT : Option String
  PubMedIds : Option (List String)
deriving Repr, DecidableEq

/-! ### `clean_pubmed_ids`

The Python body is two `re.findall` passes: the first on the pattern
`IntegerElement\((\d+)` — every non-overlapping occurrence of the literal
marker `IntegerElement(` followed by a maximal nonempty digit run (the
run is captured, scanning resumes after it) — and the second on the
pattern `\d+` — every maximal digit run.  Both scans are
left-to-right; on a failed match the scanner advances one character.
The scanners are written with an explicit fuel argument (the input
length) so they are structurally recursive and kernel-evaluable; each
step consumes at least one character, so fuel `s.length` never runs out. -/

/-- The literal marker of the first regex tier, `IntegerElement(`. -/
def ieMarker : List Char := "IntegerElement(".data

/-- Scan for `IntegerElement\((\d+)`: at each position, if the marker is a
prefix and a digit follows it, capture the maximal digit run and resume
after the run; otherwise advance one character. -/
def scanIEFuel : Nat → List Char → List (List Char)
  | 0, _ => []
  | _ + 1, [] => []
  | fuel + 1, c :: cs =>
    if ieMarker.isPrefixOf (c :: cs) then
      let ds := ((c :: cs).drop ieMarker.length).takeWhile Char.isDigit
      if ds.isEmpty then scanIEFuel fuel cs
      else ds :: scanIEFuel fuel (((c :: cs).drop ieMarker.length).drop ds.length)
    else scanIEFuel fuel cs

/-- Model of the `re.findall` pass on the pattern `IntegerElement\((\d+)`. -/
def scanIE (s : List Char) : List (List Char) := scanIEFuel s.length s

/-- Scan for `\d+`: every maximal nonempty digit run, left to right. -/
def scanDigitsFuel : Nat → List Char → List (List Char)
  | 0, _ => []
  | _ + 1, [] => []
  | fuel + 1, c :: cs =>
    if c.isDigit then
      (c :: cs).takeWhile Char.isDigit ::
        scanDigitsFuel fuel ((c :: cs).drop ((c :: cs).takeWhile Char.isDigit).length)
    else scanDigitsFuel fuel cs

/-- Model of the `re.findall` pass on the pattern `\d+`. -/
def scanDigits (s : List Char) : List (List Char) := scanDigitsFuel s.length s

/-- Model of `clean_pubmed_ids(pubmed_str)` — three-tier normalization.  The Python
argument is always a `str` (the caller joins the id list), so `str(...)`
is the identity and `not pubmed_str` is the empty-string test. -/
def clean_pubmed_ids (pubmed_str : String) : String :=
  if pubmed_str = "" then ""
  else
    let numbers := scanIE pubmed_str.data
    if ¬ numbers.isEmpty then String.intercalate "; " (numbers.map List.asString)
    else
      let numbers2 := scanDigits pubmed_str.data
      if ¬ numbers2.isEmpty then String.intercalate "; " (numbers2.map List.asString)
      else pubmed_str

/-! ### `generate_ai_summary`

The Python body applies `re.sub` with pattern `<think>.*?</think>`,
empty replacement and `flags=re.DOTALL` to the content: each
non-overlapping leftmost match runs from a `<think>` to the *first*
`</think>` after it (non-greedy `.*?`, `DOTALL` lets it cross newlines);
matches are removed and scanning resumes after the closing tag.  A
`<think>` with no later `</think>` does not match and its character is
kept.  The HTTP POST is modelled by an oracle from the prompt string to
an optional response; `none` models a raised request exception. -/

def openTag : List Char := "<think>".data

def closeTag : List Char := "</think>".data

/-- Find the first occurrence of `</think>`; return the remainder after
it, or `none` when there is no occurrence. -/
def dropToClose : List Char → Option (List Char)
  | [] => none
  | c :: cs =>
    if closeTag.isPrefixOf (c :: cs) then some ((c :: cs).drop closeTag.length)
    else dropToClose cs

/-- Fuelled scanner for the substitution: on a `<think>` with a matching
`</think>` drop through the close tag and continue; otherwise keep the
character. -/
def stripThinkFuel : Nat → List Char → List Char
  | 0, s => s
  | _ + 1, [] => []
  | fuel + 1, c :: cs =>
    if openTag.isPrefixOf (c :: cs) then
      match dropToClose ((c :: cs).drop openTag.length) with
      | some rest => stripThinkFuel fuel rest
      | none => c :: stripThinkFuel fuel cs
    else c :: stripThinkFuel fuel cs

/-- Model of the `re.sub` call removing every `<think>...</think>` span. -/
def stripThink (s : String) : String := (stripThinkFuel s.length s.data).asString

/-- Python `str.strip()`: remove leading and trailing whitespace. -/
def pyStrip (s : String) : String :=
  (((s.data.dropWhile Char.isWhitespace).reverse.dropWhile Char.isWhitespace).reverse).asString

/-- A chat-completion HTTP response: status code and the extracted
message content (`response.json()["choices"][0]["message"]["content"]`). -/
structure AiResponse where
  status_code : Nat
  content : String
deriving Repr, DecidableEq

/-- The f-string prompt built by `generate_ai_summary` (`summary[:800]`
is the bounded prefix). -/
def ai_prompt (title summary data_type : String) : String :=
  "请用中文为以下GEO数据集生成一个精炼的科研摘要（80-120字）：\n\n标题: " ++ title ++
    "\n数据类型: " ++ data_type ++ "\n研究摘要: " ++ summary.take 800 ++
    "\n\n请直接输出中文摘要："

/-- Model of `generate_ai_summary(title, summary, data_type)`.  Returns the summary
string together with a flag recording whether the HTTP POST was executed.
`net` maps the prompt to the response; `none` models a request
exception (caught and logged in Python, yielding `""`). A non-200 status
also falls through to `return ""`. -/
def generate_ai_summary (apiKey title summary data_type : String)
    (net : String → Option AiResponse) : String × Bool :=
  if apiKey = "" then ("", false)
  else
    match net (ai_prompt title summary data_type) with
    | some resp =>
        (if resp.status_code = 200 then pyStrip (stripThink resp.content) else "", true)
    | none => ("", true)

/-! ### `fetch_summaries`, `parse_record`, and the `main` merge loop -/

/-- Model of `fetch_summaries(id_list)`.  The Entrez esummary call is an oracle
from the comma-joined id string to the record list; the Bool records
whether the network call was made.  Empty input short-circuits to `[]`. -/
def fetch_summaries (id_list : List String)
    (oracle : String → List RawRecord) : List RawRecord × Bool :=
  if id_list.isEmpty then ([], false)
  else (oracle (String.intercalate "," id_list), true)

/-- Python str.startswith as a character-level prefix test (the built-in
byte-level String.startsWith loop does not reduce in the kernel). -/
def startswith (s p : String) : Bool := p.data.isPrefixOf s.data

/-- The record dict built by the tail of `parse_record` once the
accession check has passed. -/
def transformed (apiKey : String) (net : String → Option AiResponse)
    (record : RawRecord) : Record :=
  let accession := record.Accession.getD ""
  let pm := record.PubMedIds.getD []
  let pubmed_str :=
    clean_pubmed_ids (if pm.isEmpty then "" else String.intercalate "; " pm)
  let title := record.title.getD ""
  let summary := record.summary.getD ""
  let data_type := "bulk RNA-seq"
  let ai_summary := (generate_ai_summary apiKey title summary data_type net).1
  { Accession := accession
    Title := title
    Organism := record.taxon.getD ""
    Data_Type := data_type
    Sample_Count := record.n_samples.getD 0
    Platform := record.GPL.getD ""
    Country := ""
    Lab := ""
    Institute := ""
    Contributors := ""
    PubMed_IDs := pubmed_str
    Supplementary_Size := "N/A"
    Summary := summary
    Overall_Design := ""
    AI_Summary_CN := ai_summary
    AI_Summary := ai_summary
    GEO_Link := "https://www.ncbi.nlm.nih.gov/geo/query/acc.cgi?acc=" ++ accession
    Submission_Date := record.PDAT.getD "" }

/-- Model of `parse_record(record)`: `None` when the accession (default `""`)
does not start with `"GSE"`, otherwise the transformed record. -/
def parse_record (apiKey : String) (net : String → Option AiResponse)
    (record : RawRecord) : Option Record :=
  if ¬ startswith (record.Accession.getD "") "GSE" then none
  else some (transformed apiKey net record)

/-- The accession set `{d["Accession"] for d in existing_data}`. -/
def accessionsOf (data : List Record) : Finset String :=
  (data.map Record.Accession).toFinset

/-- The `for record in summaries` loop of `main`: skip known or
non-`GSE` accessions, otherwise parse, prepend (`insert(0, parsed)`),
record the accession, and bump `new_count`. -/
def mergeLoop (apiKey : String) (net : String → Option AiResponse) :
    List RawRecord → List Record → Finset String → Nat →
      List Record × Finset String × Nat
  | [], data, accs, n => (data, accs, n)
  | record :: rest, data, accs, n =>
    let accession := record.Accession.getD ""
    if accession ∈ accs ∨ ¬ startswith accession "GSE" then
      mergeLoop apiKey net rest data accs n
    else
      match parse_record apiKey net record with
      | some parsed => mergeLoop apiKey net rest (parsed :: data) (insert accession accs) (n + 1)
      | none => mergeLoop apiKey net rest data accs n

/-- Observable outcome of one `main()` run. -/
structure RunResult where
  earlyExitEmail : Bool
  loaded : Bool
  searched : Bool
  fetchCalled : Bool
  finalData : List Record
  newCount : Nat
  wrote : Bool
deriving Repr, DecidableEq

/-- Model of `main()`.  `existing` is the loaded store (the empty list when the
file is absent); `idList` is what `search_geo()` returned;
`fetchOracle`/`net` model the esummary and chat-completion endpoints.
The run aborts before loading anything when `NCBI_EMAIL` is empty, and
returns early (no fetch) when the search result is empty; otherwise it
merges and writes exactly when `new_count > 0`. -/
def mainRun (email apiKey : String) (existing : List Record)
    (idList : List String) (fetchOracle : String → List RawRecord)
    (net : String → Option AiResponse) : RunResult :=
  if email = "" then
    { earlyExitEmail := true, loaded := false, searched := false,
      fetchCalled := false, finalData := existing, newCount := 0, wrote := false }
  else
    let existing_accessions := accessionsOf existing
    if idList.isEmpty then
      { earlyExitEmail := false, loaded := true, searched := true,
        fetchCalled := false, finalData := existing, newCount := 0, wrote := false }
    else
      let fs := fetch_summaries idList fetchOracle
      let r := mergeLoop apiKey net fs.1 existing existing_accessions 0
      { earlyExitEmail := false, loaded := true, searched := true,
        fetchCalled := fs.2, finalData := r.1, newCount := r.2.2,
        wrote := decide (0 < r.2.2) }

/-- Content of the store file after the run: rewritten with the merged
data when a write happened, otherwise whatever was there before. -/
def persistedStore (before : List Record) (res : RunResult) : List Record :=
  if res.wrote then res.finalData else before

/-- Store content after one full run starting from `existing`. -/
def runOnce (email apiKey : String) (existing : List Record)
    (idList : List String) (fetchOracle : String → List RawRecord)
    (net : String → Option AiResponse) : List Record :=
  persistedStore existing (mainRun email apiKey existing idList fetchOracle net)

/-! ### Basic facts about `parse_record` and `transformed` -/

lemma parse_record_none (apiKey : String) (net : String → Option AiResponse)
    (r : RawRecord) (h : ¬ startswith (r.Accession.getD "") "GSE") :
    parse_record apiKey net r = none := by
  simp [parse_record, h]

lemma parse_record_some (apiKey : String) (net : String → Option AiResponse)
    (r : RawRecord) (h : startswith (r.Accession.getD "") "GSE") :
    parse_record apiKey net r = some (transformed apiKey net r) := by
  simp [parse_record, h]

lemma startsWith_of_parse_some {apiKey : String} {net : String → Option AiResponse}
    {r : RawRecord} {rec : Record} (h : parse_record apiKey net r = some rec) :
    startswith (r.Accession.getD "") "GSE" := by
  by_contra hn
  rw [parse_record_none apiKey net r hn] at h
  exact Option.noConfusion h

lemma transformed_of_parse_some {apiKey : String} {net : String → Option AiResponse}
    {r : RawRecord} {rec : Record} (h : parse_record apiKey net r = some rec) :
    rec = transformed apiKey net r := by
  have hs := startsWith_of_parse_some h
  rw [parse_record_some apiKey net r hs] at h
  exact (Option.some.injEq _ _ ▸ h).symm

lemma transformed_Accession (apiKey : String) (net : String → Option AiResponse)
    (r : RawRecord) : (transformed apiKey net r).Accession = r.Accession.getD "" := rfl

/-! ### Scanner lemmas for the no-digit tier of `clean_pubmed_ids` -/

lemma scanIEFuel_nil_of_no_digit (fuel : Nat) :
    ∀ l : List Char, (∀ c ∈ l, ¬ c.isDigit) → scanIEFuel fuel l = [] := by
  induction fuel with
  | zero => intro l _; rfl
  | succ fuel ih =>
    intro l h
    cases l with
    | nil => rfl
    | cons c cs =>
      have htail : ∀ x ∈ cs, ¬ x.isDigit := fun x hx => h x (List.mem_cons_of_mem c hx)
      by_cases hp : ieMarker.isPrefixOf (c :: cs)
      · have hds : (((c :: cs).drop ieMarker.length).takeWhile Char.isDigit).isEmpty := by
          cases hdrop : (c :: cs).drop ieMarker.length with
          | nil => simp
          | cons d ds =>
            have hd : ¬ d.isDigit := by
              apply h d
              exact List.mem_of_mem_drop (hdrop ▸ List.mem_cons_self d ds)
            simp [List.takeWhile_cons, hd]
        simp [scanIEFuel, hp, hds, ih cs htail]
      · simp [scanIEFuel, hp, ih cs htail]

lemma scanDigitsFuel_nil_of_no_digit (fuel : Nat) :
    ∀ l : List Char, (∀ c ∈ l, ¬ c.isDigit) → scanDigitsFuel fuel l = [] := by
  induction fuel with
  | zero => intro l _; rfl
  | succ fuel ih =>
    intro l h
    cases l with
    | nil => rfl
    | cons c cs =>
      have hc : ¬ c.isDigit := h c (List.mem_cons_self c cs)
      have htail : ∀ x ∈ cs, ¬ x.isDigit := fun x hx => h x (List.mem_cons_of_mem c hx)
      simp [scanDigitsFuel, hc, ih cs htail]

/-! ### Invariants of the merge loop -/

lemma accessionsOf_cons (rec : Record) (data : List Record) :
    accessionsOf (rec :: data) = insert rec.Accession (accessionsOf data) := by
  simp [accessionsOf]

lemma mem_accessionsOf {rec : Record} {data : List Record} (h : rec ∈ data) :
    rec.Accession ∈ accessionsOf data := by
  simp only [accessionsOf, List.mem_toFinset, List.mem_map]
  exact ⟨rec, h, rfl⟩

lemma mergeLoop_nil (apiKey : String) (net : String → Option AiResponse)
    (data : List Record) (accs : Finset String) (n : Nat) :
    mergeLoop apiKey net [] data accs n = (data, accs, n) := rfl

/-- Unfolding equation: a known or invalid accession is skipped. -/
lemma mergeLoop_cons_skip (apiKey : String) (net : String → Option AiResponse)
    {r : RawRecord} (rest : List RawRecord) (data : List Record)
    (accs : Finset String) (n : Nat)
    (h : r.Accession.getD "" ∈ accs ∨ ¬ startswith (r.Accession.getD "") "GSE") :
    mergeLoop apiKey net (r :: rest) data accs n =
      mergeLoop apiKey net rest data accs n := by
  simp only [mergeLoop]
  rw [if_pos h]

/-- Unfolding equation: a new valid accession is parsed, prepended, and
recorded. -/
lemma mergeLoop_cons_new (apiKey : String) (net : String → Option AiResponse)
    {r : RawRecord} (rest : List RawRecord) (data : List Record)
    (accs : Finset String) (n : Nat)
    (h : ¬ (r.Accession.getD "" ∈ accs ∨ ¬ startswith (r.Accession.getD "") "GSE")) :
    mergeLoop apiKey net (r :: rest) data accs n =
      mergeLoop apiKey net rest (transformed apiKey net r :: data)
        (insert (r.Accession.getD "") accs) (n + 1) := by
  have hpre : startswith (r.Accession.getD "") "GSE" := not_not.mp (not_or.mp h).2
  simp only [mergeLoop]
  rw [if_neg h, parse_record_some apiKey net r hpre]

/-- The accession set tracks the accessions of the data list throughout
the loop. -/
lemma mergeLoop_accs_tracks (apiKey : String) (net : String → Option AiResponse) :
    ∀ (rs : List RawRecord) (data : List Record) (accs : Finset String) (n : Nat),
      accs = accessionsOf data →
      (mergeLoop apiKey net rs data accs n).2.1 =
        accessionsOf (mergeLoop apiKey net rs data accs n).1 := by
  intro rs
  induction rs with
  | nil => intro data accs n h; simpa [mergeLoop_nil] using h
  | cons r rest ih =>
    intro data accs n h
    by_cases hskip : r.Accession.getD "" ∈ accs ∨ ¬ startswith (r.Accession.getD "") "GSE"
    · rw [mergeLoop_cons_skip apiKey net rest data accs n hskip]
      exact ih data accs n h
    · rw [mergeLoop_cons_new apiKey net rest data accs n hskip]
      apply ih
      rw [accessionsOf_cons, transformed_Accession, h]

/-- The accession set only grows. -/
lemma mergeLoop_accs_mono (apiKey : String) (net : String → Option AiResponse) :
    ∀ (rs : List RawRecord) (data : List Record) (accs : Finset String) (n : Nat),
      accs ⊆ (mergeLoop apiKey net rs data accs n).2.1 := by
  intro rs
  induction rs with
  | nil => intro data accs n; rw [mergeLoop_nil]
  | cons r rest ih =>
    intro data accs n
    by_cases hskip : r.Accession.getD "" ∈ accs ∨ ¬ startswith (r.Accession.getD "") "GSE"
    · rw [mergeLoop_cons_skip apiKey net rest data accs n hskip]
      exact ih data accs n
    · rw [mergeLoop_cons_new apiKey net rest data accs n hskip]
      exact (Finset.subset_insert _ accs).trans
        (ih (transformed apiKey net r :: data) (insert (r.Accession.getD "") accs) (n + 1))

/-- Every processed record with a valid accession ends up in the final
accession set. -/
lemma mergeLoop_valid_mem_accs (apiKey : String) (net : String → Option AiResponse) :
    ∀ (rs : List RawRecord) (data : List Record) (accs : Finset String) (n : Nat)
      (r : RawRecord), r ∈ rs → startswith (r.Accession.getD "") "GSE" →
      r.Accession.getD "" ∈ (mergeLoop apiKey net rs data accs n).2.1 := by
  intro rs
  induction rs with
  | nil => intro data accs n r hr; exact absurd hr (List.not_mem_nil r)
  | cons q rest ih =>
    intro data accs n r hr hpre
    by_cases hskip : q.Accession.getD "" ∈ accs ∨ ¬ startswith (q.Accession.getD "") "GSE"
    · rw [mergeLoop_cons_skip apiKey net rest data accs n hskip]
      rcases List.mem_cons.mp hr with heq | htail
      · subst heq
        rcases hskip with hmem | hbad
        · exact mergeLoop_accs_mono apiKey net rest data accs n hmem
        · exact absurd hpre hbad
      · exact ih data accs n r htail hpre
    · rw [mergeLoop_cons_new apiKey net rest data accs n hskip]
      rcases List.mem_cons.mp hr with heq | htail
      · subst heq
        exact mergeLoop_accs_mono apiKey net rest _ _ _ (Finset.mem_insert_self _ _)
      · exact ih _ _ _ r htail hpre

/-- When every fetched record is already known or invalid, the loop is a
no-op. -/
lemma mergeLoop_noop (apiKey : String) (net : String → Option AiResponse) :
    ∀ (rs : List RawRecord) (data : List Record) (accs : Finset String) (n : Nat),
      (∀ r ∈ rs, r.Accession.getD "" ∈ accs ∨ ¬ startswith (r.Accession.getD "") "GSE") →
      mergeLoop apiKey net rs data accs n = (data, accs, n) := by
  intro rs
  induction rs with
  | nil => intro data accs n _; rfl
  | cons r rest ih =>
    intro data accs n h
    rw [mergeLoop_cons_skip apiKey net rest data accs n (h r (List.mem_cons_self r rest))]
    exact ih data accs n fun q hq => h q (List.mem_cons_of_mem r hq)

/-- The counter only grows, and an unchanged counter forces an unchanged
loop state. -/
lemma mergeLoop_count (apiKey : String) (net : String → Option AiResponse) :
    ∀ (rs : List RawRecord) (data : List Record) (accs : Finset String) (n : Nat),
      n ≤ (mergeLoop apiKey net rs data accs n).2.2 ∧
      ((mergeLoop apiKey net rs data accs n).2.2 = n →
        mergeLoop apiKey net rs data accs n = (data, accs, n)) := by
  intro rs
  induction rs with
  | nil => intro data accs n; exact ⟨le_refl n, fun _ => rfl⟩
  | cons r rest ih =>
    intro data accs n
    by_cases hskip : r.Accession.getD "" ∈ accs ∨ ¬ startswith (r.Accession.getD "") "GSE"
    · rw [mergeLoop_cons_skip apiKey net rest data accs n hskip]
      exact ih data accs n
    · rw [mergeLoop_cons_new apiKey net rest data accs n hskip]
      have hrec := ih (transformed apiKey net r :: data) (insert (r.Accession.getD "") accs) (n + 1)
      refine ⟨(Nat.le_succ n).trans hrec.1, fun h => absurd hrec.1 ?_⟩
      omega

/-- The loop preserves distinctness of accessions, provided the accession
set covers the data list. -/
lemma mergeLoop_nodup (apiKey : String) (net : String → Option AiResponse) :
    ∀ (rs : List RawRecord) (data : List Record) (accs : Finset String) (n : Nat),
      (∀ rec ∈ data, rec.Accession ∈ accs) →
      (data.map Record.Accession).Nodup →
      ((mergeLoop apiKey net rs data accs n).1.map Record.Accession).Nodup := by
  intro rs
  induction rs with
  | nil => intro data accs n _ hnd; exact hnd
  | cons r rest ih =>
    intro data accs n hcov hnd
    by_cases hskip : r.Accession.getD "" ∈ accs ∨ ¬ startswith (r.Accession.getD "") "GSE"
    · rw [mergeLoop_cons_skip apiKey net rest data accs n hskip]
      exact ih data accs n hcov hnd
    · rw [mergeLoop_cons_new apiKey net rest data accs n hskip]
      have hnotmem : r.Accession.getD "" ∉ accs := (not_or.mp hskip).1
      apply ih
      · intro rec hrec
        rcases List.mem_cons.mp hrec with heq | htail
        · subst heq
          rw [transformed_Accession]
          exact Finset.mem_insert_self _ _
        · exact Finset.mem_insert_of_mem (hcov rec htail)
      · rw [List.map_cons, List.nodup_cons]
        refine ⟨?_, hnd⟩
        intro hmem
        rcases List.mem_map.mp hmem with ⟨rec, hrec, hacc⟩
        have hin : rec.Accession ∈ accs := hcov rec hrec
        rw [hacc, transformed_Accession] at hin
        exact hnotmem hin

/-- The loop preserves the all-accessions-have-the-prefix property. -/
lemma mergeLoop_all_prefixed (apiKey : String) (net : String → Option AiResponse) :
    ∀ (rs : List RawRecord) (data : List Record) (accs : Finset String) (n : Nat),
      (∀ rec ∈ data, startswith rec.Accession "GSE") →
      ∀ rec ∈ (mergeLoop apiKey net rs data accs n).1, startswith rec.Accession "GSE" := by
  intro rs
  induction rs with
  | nil => intro data accs n h; exact h
  | cons r rest ih =>
    intro data accs n h
    by_cases hskip : r.Accession.getD "" ∈ accs ∨ ¬ startswith (r.Accession.getD "") "GSE"
    · rw [mergeLoop_cons_skip apiKey net rest data accs n hskip]
      exact ih data accs n h
    · have hpre : startswith (r.Accession.getD "") "GSE" := not_not.mp (not_or.mp hskip).2
      rw [mergeLoop_cons_new apiKey net rest data accs n hskip]
      apply ih
      intro rec hrec
      rcases List.mem_cons.mp hrec with heq | htail
      · subst heq
        rw [transformed_Accession]
        exact hpre
      · exact h rec htail

/-! ### Unfolding equations for `mainRun` -/

lemma mainRun_email_empty (apiKey : String) (existing : List Record)
    (idList : List String) (fetchOracle : String → List RawRecord)
    (net : String → Option AiResponse) :
    mainRun "" apiKey existing idList fetchOracle net =
      { earlyExitEmail := true, loaded := false, searched := false,
        fetchCalled := false, finalData := existing, newCount := 0,
        wrote := false } := rfl

lemma mainRun_no_ids (email apiKey : String) (existing : List Record)
    (fetchOracle : String → List RawRecord) (net : String → Option AiResponse)
    (hemail : ¬ email = "") :
    mainRun email apiKey existing [] fetchOracle net =
      { earlyExitEmail := false, loaded := true, searched := true,
        fetchCalled := false, finalData := existing, newCount := 0,
        wrote := false } := by
  simp [mainRun, hemail]

lemma mainRun_merge (email apiKey : String) (existing : List Record)
    (idList : List String) (fetchOracle : String → List RawRecord)
    (net : String → Option AiResponse)
    (hemail : ¬ email = "") (hid : ¬ idList.isEmpty = true) :
    mainRun email apiKey existing idList fetchOracle net =
      { earlyExitEmail := false, loaded := true, searched := true,
        fetchCalled := (fetch_summaries idList fetchOracle).2,
        finalData := (mergeLoop apiKey net (fetch_summaries idList fetchOracle).1
          existing (accessionsOf existing) 0).1,
        newCount := (mergeLoop apiKey net (fetch_summaries idList fetchOracle).1
          existing (accessionsOf existing) 0).2.2,
        wrote := decide (0 < (mergeLoop apiKey net (fetch_summaries idList fetchOracle).1
          existing (accessionsOf existing) 0).2.2) } := by
  simp [mainRun, hemail, hid]

/-! ### Concrete fixtures used by the witnesses -/

/-- Chat-completion oracle for runs with no AI credential: every request
raises (never consulted when the key is empty). -/
def net0 : String → Option AiResponse := fun _ => none

/-- An esummary oracle returning no records. -/
def oracle0 : String → List RawRecord := fun _ => []

def rawC0 : RawRecord :=
  ⟨some "GSE101", some "titleC", some "summaryC", some "Homo sapiens",
    some 4, some "GPL570", some "2024/05/01", some ["111", "222"]⟩

def rawD0 : RawRecord :=
  ⟨some "GSE102", some "titleD", some "summaryD", some "Mus musculus",
    some 8, some "GPL96", some "2024/06/01", none⟩

/-- A raw record with a non-GSE accession (a GDS series), rejected by the
prefix filter. -/
def rawBad0 : RawRecord :=
  ⟨some "GDS100", some "titleX", some "summaryX", some "Homo sapiens",
    some 2, some "GPL1", some "2024/01/01", none⟩

def recA0 : Record :=
  transformed "" net0
    ⟨some "GSE001", some "titleA", some "sA", some "Homo sapiens",
      some 1, some "GPL1", some "2023/01/01", none⟩

def recB0 : Record :=
  transformed "" net0
    ⟨some "GSE002", some "titleB", some "sB", some "Homo sapiens",
      some 2, some "GPL2", some "2023/02/01", none⟩

/-- An esummary oracle that returns record C twice and D once, exercising
within-run deduplication. -/
def oracleCDC : String → List RawRecord := fun _ => [rawC0, rawD0, rawC0]

/-- A chat-completion oracle that always answers 200 with a reasoning
trace followed by the final text. -/
def net1 : String → Option AiResponse :=
  fun _ => some ⟨200, "<think>ignore this</think>Final text."⟩

/-! ### The claims -/

/-- C1: after every run of the pipeline, the persisted store contains no
two records with the same accession — fetched records whose accession is
already known are skipped, and each inserted accession joins the known
set before the next record is considered — provided the store loaded at
the start of the run already satisfied the invariant. -/
theorem dedup_invariant (email apiKey : String) (existing : List Record)
    (idList : List String) (fetchOracle : String → List RawRecord)
    (net : String → Option AiResponse)
    (hnd : (existing.map Record.Accession).Nodup) :
    ((persistedStore existing (mainRun email apiKey existing idList fetchOracle net)).map
      Record.Accession).Nodup := by
  by_cases hemail : email = ""
  · subst hemail
    rw [mainRun_email_empty]
    exact hnd
  · by_cases hid : idList.isEmpty = true
    · rw [List.isEmpty_iff.mp hid, mainRun_no_ids email apiKey existing fetchOracle net hemail]
      exact hnd
    · rw [mainRun_merge email apiKey existing idList fetchOracle net hemail hid]
      have hmerge := mergeLoop_nodup apiKey net (fetch_summaries idList fetchOracle).1
        existing (accessionsOf existing) 0 (fun rec h => mem_accessionsOf h) hnd
      unfold persistedStore
      split
      · exact hmerge
      · exact hnd

theorem dedup_invariant_witness :
    ((persistedStore [recA0] (mainRun "user@example.org" "" [recA0] ["1", "2", "3"]
      oracleCDC net0)).map Record.Accession).Nodup :=
  dedup_invariant "user@example.org" "" [recA0] ["1", "2", "3"] oracleCDC net0 (by decide)

/-- C2: starting from store [A, B], a run that discovers new records C and
then D (in that fetch order) inserts each at index 0 in turn, producing
[D, C, A, B]: new records sit before all pre-existing ones, in reverse of
fetch order among themselves. -/
theorem merge_order (apiKey : String) (net : String → Option AiResponse)
    (A B : Record) (C D : RawRecord) (PC PD : Record)
    (hC : parse_record apiKey net C = some PC)
    (hD : parse_record apiKey net D = some PD)
    (hCnew : C.Accession.getD "" ∉ accessionsOf [A, B])
    (hDnew : D.Accession.getD "" ∉ accessionsOf [A, B])
    (hDC : D.Accession.getD "" ≠ C.Accession.getD "") :
    (mergeLoop apiKey net [C, D] [A, B] (accessionsOf [A, B]) 0).1 = [PD, PC, A, B] := by
  have hCpre := startsWith_of_parse_some hC
  have hDpre := startsWith_of_parse_some hD
  have hCt := transformed_of_parse_some hC
  have hDt := transformed_of_parse_some hD
  have hCcond : ¬ (C.Accession.getD "" ∈ accessionsOf [A, B] ∨
      ¬ startswith (C.Accession.getD "") "GSE") := by
    push_neg
    exact ⟨hCnew, hCpre⟩
  have hDcond : ¬ (D.Accession.getD "" ∈ insert (C.Accession.getD "") (accessionsOf [A, B]) ∨
      ¬ startswith (D.Accession.getD "") "GSE") := by
    push_neg
    refine ⟨?_, hDpre⟩
    rw [Finset.mem_insert]
    push_neg
    exact ⟨hDC, hDnew⟩
  rw [mergeLoop_cons_new apiKey net [D] [A, B] (accessionsOf [A, B]) 0 hCcond,
    mergeLoop_cons_new apiKey net [] (transformed apiKey net C :: [A, B])
      (insert (C.Accession.getD "") (accessionsOf [A, B])) 1 hDcond,
    mergeLoop_nil, hCt, hDt]

theorem merge_order_witness :
    (mergeLoop "" net0 [rawC0, rawD0] [recA0, recB0] (accessionsOf [recA0, recB0]) 0).1 =
      [transformed "" net0 rawD0, transformed "" net0 rawC0, recA0, recB0] :=
  merge_order "" net0 recA0 recB0 rawC0 rawD0 (transformed "" net0 rawC0)
    (transformed "" net0 rawD0) (parse_record_some "" net0 rawC0 (by decide))
    (parse_record_some "" net0 rawD0 (by decide)) (by decide) (by decide) (by decide)

/-- C3: the literature-ID normalizer has a three-tier fallback: with
wrapper markers IntegerElement(123) and IntegerElement(456) it yields
"123; 456"; with only bare digit runs "789 101" it yields "789; 101";
with empty input it yields ""; and a nonempty input with no digits at all
is returned unmodified. -/
theorem clean_pubmed_ids_spec :
    clean_pubmed_ids "IntegerElement(123); IntegerElement(456)" = "123; 456" ∧
    clean_pubmed_ids "789 101" = "789; 101" ∧
    clean_pubmed_ids "" = "" ∧
    ∀ s : String, s ≠ "" → (∀ c ∈ s.data, ¬ c.isDigit) → clean_pubmed_ids s = s := by
  refine ⟨by decide, by decide, rfl, ?_⟩
  intro s hne hnd
  unfold clean_pubmed_ids
  rw [if_neg hne]
  have h1 : scanIE s.data = [] := scanIEFuel_nil_of_no_digit _ s.data hnd
  have h2 : scanDigits s.data = [] := scanDigitsFuel_nil_of_no_digit _ s.data hnd
  simp [h1, h2, scanIE, scanDigits] at h1 h2 ⊢
  simp [h1, h2]

theorem clean_pubmed_ids_spec_witness : clean_pubmed_ids "no ids found" = "no ids found" :=
  clean_pubmed_ids_spec.2.2.2 "no ids found" (by decide) (by decide)

/-- C4: a raw record whose accession is missing or lacks the GSE prefix is
rejected by parse_record (returns none), and — as long as the loaded
store only held GSE-prefixed records — no record without the prefix ever
appears in the store produced by a run. -/
theorem prefix_filter (email apiKey : String) (net : String → Option AiResponse)
    (r : RawRecord) (existing : List Record) (idList : List String)
    (fetchOracle : String → List RawRecord)
    (hbad : ¬ startswith (r.Accession.getD "") "GSE")
    (hex : ∀ rec ∈ existing, startswith rec.Accession "GSE") :
    parse_record apiKey net r = none ∧
    ∀ rec ∈ (mainRun email apiKey existing idList fetchOracle net).finalData,
      startswith rec.Accession "GSE" := by
  refine ⟨parse_record_none apiKey net r hbad, ?_⟩
  by_cases hemail : email = ""
  · subst hemail
    rw [mainRun_email_empty]
    exact hex
  · by_cases hid : idList.isEmpty = true
    · rw [List.isEmpty_iff.mp hid, mainRun_no_ids email apiKey existing fetchOracle net hemail]
      exact hex
    · rw [mainRun_merge email apiKey existing idList fetchOracle net hemail hid]
      exact mergeLoop_all_prefixed apiKey net (fetch_summaries idList fetchOracle).1
        existing (accessionsOf existing) 0 hex

theorem prefix_filter_witness : parse_record "" net0 rawBad0 = none :=
  (prefix_filter "user@example.org" "" net0 rawBad0 [recA0] ["1"] oracle0
    (by decide) (by decide)).1

/-- C5: the store file is written only when at least one new record was
added — with none, no write happens and the persisted store is unchanged
— and a second run against the same external data is idempotent: it
performs no write and leaves the persisted store exactly as after the
first run. -/
theorem write_only_on_change_idempotent (email apiKey : String)
    (existing : List Record) (idList : List String)
    (fetchOracle : String → List RawRecord) (net : String → Option AiResponse) :
    ((mainRun email apiKey existing idList fetchOracle net).newCount = 0 →
      (mainRun email apiKey existing idList fetchOracle net).wrote = false ∧
      runOnce email apiKey existing idList fetchOracle net = existing) ∧
    ((mainRun email apiKey (runOnce email apiKey existing idList fetchOracle net)
        idList fetchOracle net).wrote = false ∧
      runOnce email apiKey (runOnce email apiKey existing idList fetchOracle net)
        idList fetchOracle net = runOnce email apiKey existing idList fetchOracle net) := by
  by_cases hemail : email = ""
  · subst hemail
    simp [runOnce, mainRun_email_empty, persistedStore]
  · by_cases hid : idList.isEmpty = true
    · rw [List.isEmpty_iff.mp hid]
      simp [runOnce, mainRun_no_ids email apiKey _ fetchOracle net hemail, persistedStore]
    · have hrun1 := mainRun_merge email apiKey existing idList fetchOracle net hemail hid
      set L := mergeLoop apiKey net (fetch_summaries idList fetchOracle).1
        existing (accessionsOf existing) 0 with hL
      have hpart1 : (mainRun email apiKey existing idList fetchOracle net).newCount = 0 →
          (mainRun email apiKey existing idList fetchOracle net).wrote = false ∧
          runOnce email apiKey existing idList fetchOracle net = existing := by
        intro h
        rw [hrun1] at h ⊢
        simp only at h
        have hw : decide (0 < L.2.2) = false := by simp [h]
        refine ⟨hw, ?_⟩
        rw [runOnce, hrun1]
        simp [persistedStore, h]
      refine ⟨hpart1, ?_⟩
      by_cases hn : L.2.2 = 0
      · have hfirst := hpart1 (by rw [hrun1]; exact hn)
        rw [hfirst.2]
        constructor
        · rw [hrun1]
          simp [hn]
        · rw [hfirst.2]
      · have hwrote : decide (0 < L.2.2) = true := by
          simp [Nat.pos_of_ne_zero hn]
        have hstore1 : runOnce email apiKey existing idList fetchOracle net = L.1 := by
          rw [runOnce, hrun1]
          simp [persistedStore, hwrote]
        have haccs : accessionsOf L.1 = L.2.1 :=
          (mergeLoop_accs_tracks apiKey net (fetch_summaries idList fetchOracle).1
            existing (accessionsOf existing) 0 rfl).symm
        have hknown : ∀ q ∈ (fetch_summaries idList fetchOracle).1,
            q.Accession.getD "" ∈ accessionsOf L.1 ∨
            ¬ startswith (q.Accession.getD "") "GSE" := by
          intro q hq
          by_cases hqpre : startswith (q.Accession.getD "") "GSE"
          · left
            rw [haccs]
            exact mergeLoop_valid_mem_accs apiKey net
              (fetch_summaries idList fetchOracle).1 existing (accessionsOf existing) 0
              q hq hqpre
          · right
            exact hqpre
        have hnoop := mergeLoop_noop apiKey net (fetch_summaries idList fetchOracle).1
          L.1 (accessionsOf L.1) 0 hknown
        have hrun2 := mainRun_merge email apiKey L.1 idList fetchOracle net hemail hid
        rw [hstore1, hrun2, hnoop]
        refine ⟨rfl, ?_⟩
        rw [runOnce, hrun2, hnoop]
        simp [persistedStore]

theorem write_only_on_change_idempotent_witness :
    (mainRun "user@example.org" "" [] [] oracle0 net0).wrote = false ∧
    runOnce "user@example.org" "" [] [] oracle0 net0 = [] :=
  (write_only_on_change_idempotent "user@example.org" "" [] [] oracle0 net0).1 rfl

/-- C6: with no AI credential configured, generate_ai_summary returns the
empty string without attempting the HTTP request (the call-made flag is
false whatever the network oracle would answer), so every record stored
in such a run has empty AI_Summary_CN and AI_Summary fields. -/
theorem enrichment_skip_no_credential (apiKey title summary data_type : String)
    (net : String → Option AiResponse) (r : RawRecord) (rec : Record)
    (hkey : apiKey = "") (hparse : parse_record apiKey net r = some rec) :
    generate_ai_summary apiKey title summary data_type net = ("", false) ∧
    rec.AI_Summary_CN = "" ∧ rec.AI_Summary = "" := by
  subst hkey
  have ht := transformed_of_parse_some hparse
  subst ht
  exact ⟨rfl, rfl, rfl⟩

theorem enrichment_skip_no_credential_witness :
    generate_ai_summary "" "titleC" "summaryC" "bulk RNA-seq" net0 = ("", false) ∧
    (transformed "" net0 rawC0).AI_Summary_CN = "" ∧
    (transformed "" net0 rawC0).AI_Summary = "" :=
  enrichment_skip_no_credential "" "titleC" "summaryC" "bulk RNA-seq" net0 rawC0
    (transformed "" net0 rawC0) rfl (parse_record_some "" net0 rawC0 (by decide))

/-- C7: on a successful (status 200) completion response the generator
returns the content with every think-tag span removed — also across line
boundaries — and surrounding whitespace stripped; in particular the raw
completion with a think prelude before "Final text." yields exactly
"Final text.". -/
theorem reasoning_tag_stripping (apiKey title summary data_type : String)
    (net : String → Option AiResponse) (resp : AiResponse)
    (hkey : ¬ apiKey = "")
    (hnet : net (ai_prompt title summary data_type) = some resp)
    (hstatus : resp.status_code = 200) :
    (generate_ai_summary apiKey title summary data_type net).1 =
      pyStrip (stripThink resp.content) ∧
    pyStrip (stripThink "<think>ignore this</think>Final text.") = "Final text." ∧
    pyStrip (stripThink "<think>line one\nline two</think>\n  Final text.  ") = "Final text." := by
  refine ⟨?_, by decide, by decide⟩
  unfold generate_ai_summary
  rw [if_neg hkey, hnet]
  simp [hstatus]

theorem reasoning_tag_stripping_witness :
    (generate_ai_summary "some-key" "titleC" "summaryC" "bulk RNA-seq" net1).1 =
      "Final text." := by
  have h := reasoning_tag_stripping "some-key" "titleC" "summaryC" "bulk RNA-seq" net1
    ⟨200, "<think>ignore this</think>Final text."⟩ (by decide) rfl rfl
  exact h.1.trans h.2.1

/-- C8: the summary fetcher on an empty identifier list returns the empty
list and makes no network call, whatever the bulk-summary service would
have answered. -/
theorem fetch_summaries_empty_short_circuit (oracle : String → List RawRecord) :
    fetch_summaries [] oracle = ([], false) := rfl

/-- C9: with an empty NCBI_EMAIL the pipeline prints a diagnostic and
returns normally before doing anything else: nothing is loaded, no search
or fetch happens, no write happens, and the persisted store is untouched. -/
theorem missing_email_aborts (apiKey : String) (existing : List Record)
    (idList : List String) (fetchOracle : String → List RawRecord)
    (net : String → Option AiResponse) :
    mainRun "" apiKey existing idList fetchOracle net =
      { earlyExitEmail := true, loaded := false, searched := false,
        fetchCalled := false, finalData := existing, newCount := 0,
        wrote := false } ∧
    persistedStore existing (mainRun "" apiKey existing idList fetchOracle net) = existing :=
  ⟨rfl, rfl⟩

/-- C10: every record accepted by parse_record carries a GEO_Link equal to
the fixed permalink prefix concatenated with its accession. -/
theorem geo_link_derived (apiKey : String) (net : String → Option AiResponse)
    (r : RawRecord) (rec : Record) (hparse : parse_record apiKey net r = some rec) :
    rec.GEO_Link = "https://www.ncbi.nlm.nih.gov/geo/query/acc.cgi?acc=" ++ rec.Accession := by
  have ht := transformed_of_parse_some hparse
  subst ht
  rfl

theorem geo_link_derived_witness :
    (transformed "" net0 rawC0).GEO_Link =
      "https://www.ncbi.nlm.nih.gov/geo/query/acc.cgi?acc=" ++
        (transformed "" net0 rawC0).Accession :=
  geo_link_derived "" net0 rawC0 (transformed "" net0 rawC0)
    (parse_record_some "" net0 rawC0 (by decide))

end GeoUpdate
